import Mathlib

/-!
Shallow embedding of the history/document-model subsystem of the
Modulaire Kunst Studio component (src/ModulaireKunstStudio.tsx).

The component keeps five pieces of React state: the asset list, the piece
list, the current selection id, the undo history stack and the redo future
stack.  Every numeric field of a piece is a JavaScript number; we model
them as rationals.  Identifiers produced by `uid()` and the canvas
bounding rectangle produced by `getBoundingClientRect()` are environment
inputs and appear as explicit parameters of the operations that use them.
-/

namespace ModulaireKunstStudio

/-- An uploaded image asset (`type Asset` in the source). -/
structure Asset where
  id : String
  name : String
  dataUrl : String
deriving DecidableEq

/-- A placed piece on the canvas (`type Piece` in the source). -/
structure Piece where
  id : String
  assetId : String
  x : ℚ
  y : ℚ
  width : ℚ
  height : ℚ
  hue : ℚ
  saturate : ℚ
  brightness : ℚ
  contrast : ℚ
  opacity : ℚ
  z : ℚ
deriving DecidableEq

/-- A document snapshot (`type Project` in the source): all assets and pieces. -/
structure Project where
  assets : List Asset
  pieces : List Piece
deriving DecidableEq

/-- The mutable component state: document, selection, history and future
stacks.  JavaScript arrays push/pop at the end, so the most recent history
entry is the LAST element of `history`; `future` has the soonest-to-redo
entry FIRST (the source unshifts onto `future`). -/
structure Studio where
  assets : List Asset
  pieces : List Piece
  selectedId : Option String
  history : List Project
  future : List Project
deriving DecidableEq

/-- The fixed grid unit (`const gridSize = 24`). -/
def gridSize : ℚ := 24

/-- The current document of a studio state, as a `Project`. -/
def doc (s : Studio) : Project := ⟨s.assets, s.pieces⟩

/-- `snapshot()`: a deep copy of the current document.  Lean values are
immutable, so `structuredClone` is the identity on the embedded data. -/
def snapshot (s : Studio) : Project := ⟨s.assets, s.pieces⟩

/-- `pushHistory()` (the spec calls it `record()`): append the current
snapshot to the history stack and clear the future stack. -/
def pushHistory (s : Studio) : Studio :=
  { s with history := s.history ++ [snapshot s], future := [] }

/-- `undo()`: pop the most recent history entry, unshift the current
snapshot onto the future stack, and restore the popped document.
No-op when the history stack is empty. -/
def undo (s : Studio) : Studio :=
  match s.history.getLast? with
  | none => s
  | some prev =>
      { s with
        assets := prev.assets
        pieces := prev.pieces
        history := s.history.dropLast
        future := snapshot s :: s.future }

/-- `redo()`: shift the earliest future entry, append the current snapshot
to the history stack, and restore the shifted document.  No-op when the
future stack is empty. -/
def redo (s : Studio) : Studio :=
  match s.future with
  | [] => s
  | next :: rest =>
      { s with
        assets := next.assets
        pieces := next.pieces
        history := s.history ++ [snapshot s]
        future := rest }

/-- `selectedPiece`: the first piece whose id equals the selection id, or
none (`pieces.find((p) => p.id === selectedId) || null`). -/
def selectedPiece (s : Studio) : Option Piece :=
  s.selectedId.bind fun i => s.pieces.find? fun p => p.id = i

/-- Canvas bounds, from `getBoundingClientRect()` on the canvas element. -/
structure Rect where
  width : ℚ
  height : ℚ
deriving DecidableEq

/-- `addPieceFromAsset(asset)`: place a piece for `asset`.  The canvas
rectangle is `none` when the canvas ref is not mounted (`!canvasRef.current`),
in which case the operation returns before pushing history.  `newId` is the
value produced by `uid()`. -/
def addPieceFromAsset (rect : Option Rect) (newId : String) (asset : Asset)
    (s : Studio) : Studio :=
  match rect with
  | none => s
  | some r =>
      let s' := pushHistory s
      let defaultSize : ℚ := min r.width r.height * (3 / 10)
      let newPiece : Piece :=
        { id := newId
          assetId := asset.id
          x := r.width / 2 - defaultSize / 2
          y := r.height / 2 - defaultSize / 2
          width := defaultSize
          height := defaultSize
          hue := 0
          saturate := 100
          brightness := 100
          contrast := 100
          opacity := 100
          z := ((s.pieces.getLast?).map Piece.z).getD 0 + 1 }
      { s' with pieces := s.pieces ++ [newPiece], selectedId := some newId }

/-- `removeSelected()`: delete every piece carrying the selection id and
clear the selection; no-op when nothing is selected. -/
def removeSelected (s : Studio) : Studio :=
  match s.selectedId with
  | none => s
  | some i =>
      let s' := pushHistory s
      { s' with pieces := s.pieces.filter fun x => ¬ x.id = i, selectedId := none }

/-- `duplicateSelected()`: clone the selected piece with a fresh id
(`uid()`, passed in as `newId`), offset by (+20, +20), z one higher; the
clone is appended and becomes selected.  No-op without a selection. -/
def duplicateSelected (newId : String) (s : Studio) : Studio :=
  match selectedPiece s with
  | none => s
  | some sp =>
      let s' := pushHistory s
      let copy : Piece := { sp with id := newId, x := sp.x + 20, y := sp.y + 20, z := sp.z + 1 }
      { s' with pieces := s.pieces ++ [copy], selectedId := some copy.id }

/-- `bringForward()`: increment the selected piece's z. -/
def bringForward (s : Studio) : Studio :=
  match selectedPiece s with
  | none => s
  | some sp =>
      let s' := pushHistory s
      { s' with
        pieces := s.pieces.map fun x => if x.id = sp.id then { x with z := x.z + 1 } else x }

/-- `sendBackward()`: decrement the selected piece's z, clamped at 0
(`Math.max(0, x.z - 1)`). -/
def sendBackward (s : Studio) : Studio :=
  match selectedPiece s with
  | none => s
  | some sp =>
      let s' := pushHistory s
      { s' with
        pieces := s.pieces.map fun x =>
          if x.id = sp.id then { x with z := max 0 (x.z - 1) } else x }

/-- The snap applied in `onDragStop` / `onResizeStop`:
`snapEnabled ? Math.round(v / gridSize) * gridSize : v`.
JavaScript `Math.round` rounds half-up, which is Mathlib's `round`. -/
def snap (snapEnabled : Bool) (v : ℚ) : ℚ :=
  if snapEnabled then ((round (v / gridSize) : ℤ) : ℚ) * gridSize else v

/-- What `localStorage.getItem(PROJECT_KEY)` followed by `JSON.parse` can
yield: a missing key, content that fails to parse, or a parsed object
whose `assets` / `pieces` fields may each be absent (the source applies
`|| []` to both). -/
inductive Stored where
  | missing : Stored
  | malformed : Stored
  | ok : Option (List Asset) → Option (List Piece) → Stored

/-- `loadProject()`: on a missing key or a parse error, alert the user and
leave the state untouched; on success replace assets and pieces wholesale
(defaulting absent fields to `[]`) and clear the selection.  The boolean
reports whether a failure alert was raised. -/
def loadProject (stored : Stored) (s : Studio) : Studio × Bool :=
  match stored with
  | .missing => (s, true)
  | .malformed => (s, true)
  | .ok as ps =>
      ({ s with assets := as.getD [], pieces := ps.getD [], selectedId := none }, false)

/-- A generic mutation operation in the sense of the spec: it calls
`record()` (= `pushHistory`) and then applies a change to the document and
possibly to the selection.  Every concrete operation above, in the branch
where its precondition holds, is an instance. -/
def mutate (op : (Project → Project) × Option String) (s : Studio) : Studio :=
  let s' := pushHistory s
  { s' with
    assets := (op.1 (doc s)).assets
    pieces := (op.1 (doc s)).pieces
    selectedId := op.2 }

/-- A sequence of mutation operations, applied left to right. -/
def applyOps (ops : List ((Project → Project) × Option String)) (s : Studio) : Studio :=
  ops.foldl (fun t op => mutate op t) s

/-! ### Basic lemmas about the history machinery -/

theorem undo_of_history_eq_nil (s : Studio) (h : s.history = []) : undo s = s := by
  simp [undo, h]

theorem undo_of_history_concat (s : Studio) (l : List Project) (p : Project)
    (hh : s.history = l ++ [p]) :
    undo s = { s with assets := p.assets, pieces := p.pieces,
                      history := l, future := snapshot s :: s.future } := by
  simp [undo, hh]

theorem redo_of_future_eq_nil (s : Studio) (h : s.future = []) : redo s = s := by
  simp [redo, h]

theorem redo_of_future_cons (s : Studio) (p : Project) (rest : List Project)
    (h : s.future = p :: rest) :
    redo s = { s with assets := p.assets, pieces := p.pieces,
                      history := s.history ++ [snapshot s], future := rest } := by
  simp [redo, h]

/-- Redo exactly inverts a successful undo. -/
theorem redo_undo (s : Studio) (hne : s.history ≠ []) : redo (undo s) = s := by
  obtain h | ⟨l, p, hl⟩ := s.history.eq_nil_or_concat
  · exact absurd h hne
  · cases s with
    | mk a b sel hi fu =>
      simp only at hl
      subst hl
      simp [undo, redo, snapshot]

theorem undo_history_length (s : Studio) :
    (undo s).history.length = s.history.length - 1 := by
  obtain h | ⟨l, p, hl⟩ := s.history.eq_nil_or_concat
  · simp [undo_of_history_eq_nil s h, h]
  · rw [List.concat_eq_append] at hl
    simp [undo_of_history_concat s l p hl, hl]

/-- n redos undo n undos, as long as the history stack is deep enough. -/
theorem redo_iterate_undo_iterate (n : ℕ) :
    ∀ s : Studio, n ≤ s.history.length → redo^[n] (undo^[n] s) = s := by
  induction n with
  | zero => intro s _; simp
  | succ n ih =>
    intro s hn
    have hne : s.history ≠ [] := by
      intro h; rw [h] at hn; simp at hn
    have h1 : undo^[n + 1] s = undo^[n] (undo s) := Function.iterate_succ_apply undo n s
    have h2 : ∀ x, redo^[n + 1] x = redo (redo^[n] x) := fun x =>
      Function.iterate_succ_apply' redo n x
    have hlen : n ≤ (undo s).history.length := by
      rw [undo_history_length]; omega
    rw [h1, h2, ih (undo s) hlen, redo_undo s hne]

theorem applyOps_cons (op : (Project → Project) × Option String)
    (ops : List ((Project → Project) × Option String)) (s : Studio) :
    applyOps (op :: ops) s = applyOps ops (mutate op s) := rfl

theorem mutate_history (op : (Project → Project) × Option String) (s : Studio) :
    (mutate op s).history = s.history ++ [snapshot s] := rfl

theorem applyOps_history_length (ops : List ((Project → Project) × Option String)) :
    ∀ s : Studio, (applyOps ops s).history.length = s.history.length + ops.length := by
  induction ops with
  | nil => intro s; rfl
  | cons op ops ih =>
    intro s
    rw [applyOps_cons, ih (mutate op s), mutate_history]
    simp
    omega

/-- Undoing as many times as there were mutations restores the document
and the history stack; only the selection and the future stack may differ. -/
theorem undo_iterate_applyOps (ops : List ((Project → Project) × Option String)) :
    ∀ s : Studio, ∃ sel fut,
      undo^[ops.length] (applyOps ops s) =
        { assets := s.assets, pieces := s.pieces, selectedId := sel,
          history := s.history, future := fut } := by
  induction ops with
  | nil =>
    intro s
    exact ⟨s.selectedId, s.future, by cases s; rfl⟩
  | cons op ops ih =>
    intro s
    rw [applyOps_cons, List.length_cons, Function.iterate_succ_apply']
    obtain ⟨sel, fut, h⟩ := ih (mutate op s)
    refine ⟨sel, snapshot (mutate op s) :: fut, ?_⟩
    rw [h]
    rw [undo_of_history_concat _ s.history (snapshot s) (by simp [mutate_history])]
    simp [snapshot]

/-- Claim C1: for every initial studio state and every sequence of N
mutation operations (each of which records a snapshot before changing the
document), N consecutive undos restore the document to its state before
the first operation, and N subsequent redos restore the ENTIRE state —
document, history stack and future stack — to the state reached by the
mutations alone, as if no undo had ever occurred. -/
theorem c1_undo_redo_roundtrip
    (ops : List ((Project → Project) × Option String)) (s0 : Studio) :
    doc (undo^[ops.length] (applyOps ops s0)) = doc s0 ∧
    redo^[ops.length] (undo^[ops.length] (applyOps ops s0)) = applyOps ops s0 := by
  constructor
  · obtain ⟨sel, fut, h⟩ := undo_iterate_applyOps ops s0
    rw [h]
    rfl
  · apply redo_iterate_undo_iterate
    rw [applyOps_history_length]
    omega

/-- Claim C3: undo on an empty history stack is a no-op (the whole state,
document and both stacks included, is unchanged), and redo on an empty
future stack is a no-op. -/
theorem c3_empty_stack_noop (s : Studio) :
    (s.history = [] → undo s = s) ∧ (s.future = [] → redo s = s) :=
  ⟨undo_of_history_eq_nil s, redo_of_future_eq_nil s⟩

/-- A concrete studio state with empty history and future stacks. -/
def sEmptyStacks : Studio :=
  { assets := [⟨"a1", "art1.svg", "data:image/svg+xml;base64,AAAA"⟩]
    pieces := [⟨"p1", "a1", 10, 20, 50, 50, 0, 100, 100, 100, 100, 1⟩]
    selectedId := some "p1"
    history := []
    future := [] }

theorem c3_empty_stack_noop_witness :
    undo sEmptyStacks = sEmptyStacks ∧ redo sEmptyStacks = sEmptyStacks :=
  ⟨(c3_empty_stack_noop sEmptyStacks).1 rfl, (c3_empty_stack_noop sEmptyStacks).2 rfl⟩

/-- Claim C2: every mutation operation (each records a snapshot via
`pushHistory` before changing the document) leaves the future stack empty,
so a subsequent redo is a no-op until another undo occurs.  Stated for the
generic mutation shape and for each concrete operation in the branch where
it actually mutates. -/
theorem c2_mutation_clears_future (s : Studio) :
    (∀ i, s.selectedId = some i → (removeSelected s).future = []) ∧
    (∀ sp, selectedPiece s = some sp →
      (∀ nid, (duplicateSelected nid s).future = []) ∧
      (bringForward s).future = [] ∧
      (sendBackward s).future = []) ∧
    (∀ r nid a, (addPieceFromAsset (some r) nid a s).future = []) ∧
    (∀ op, (mutate op s).future = []) ∧
    (s.future = [] → redo s = s) := by
  refine ⟨?_, ?_, ?_, ?_, redo_of_future_eq_nil s⟩
  · intro i h
    simp [removeSelected, h, pushHistory]
  · intro sp h
    exact ⟨fun nid => by simp [duplicateSelected, h, pushHistory],
      by simp [bringForward, h, pushHistory],
      by simp [sendBackward, h, pushHistory]⟩
  · intro r nid a
    simp [addPieceFromAsset, pushHistory]
  · intro op
    rfl

/-- A concrete state as it looks right after an undo: the future stack is
populated and a piece is selected. -/
def sAfterUndo : Studio :=
  { assets := [⟨"a1", "art1.svg", "data:image/svg+xml;base64,AAAA"⟩]
    pieces := [⟨"p1", "a1", 10, 20, 50, 50, 0, 100, 100, 100, 100, 1⟩]
    selectedId := some "p1"
    history := []
    future := [⟨[], []⟩] }

theorem c2_mutation_clears_future_witness :
    (removeSelected sAfterUndo).future = [] ∧
    (duplicateSelected "p9" sAfterUndo).future = [] ∧
    redo (removeSelected sAfterUndo) = removeSelected sAfterUndo := by
  have h := c2_mutation_clears_future sAfterUndo
  have h1 : (removeSelected sAfterUndo).future = [] := h.1 "p1" rfl
  have h2 : (duplicateSelected "p9" sAfterUndo).future = [] :=
    (h.2.1 ⟨"p1", "a1", 10, 20, 50, 50, 0, 100, 100, 100, 100, 1⟩ (by decide)).1 "p9"
  exact ⟨h1, h2, (c2_mutation_clears_future (removeSelected sAfterUndo)).2.2.2.2 h1⟩

/-- Claim C9: undo and redo never touch the stored selection identifier,
and a selection identifier that matches no piece id makes the
selected-piece lookup yield none. -/
theorem c9_selection_outside_history (s : Studio) :
    (undo s).selectedId = s.selectedId ∧
    (redo s).selectedId = s.selectedId ∧
    (∀ i, s.selectedId = some i → (∀ p ∈ s.pieces, ¬ p.id = i) →
      selectedPiece s = none) := by
  refine ⟨?_, ?_, ?_⟩
  · cases hg : s.history.getLast? <;> simp [undo, hg]
  · cases hf : s.future with
    | nil => simp [redo, hf]
    | cons p rest => simp [redo, hf]
  · intro i hi hnone
    have hfind : s.pieces.find? (fun p => p.id = i) = none := by
      rw [List.find?_eq_none]
      intro p hp
      simpa using hnone p hp
    simp [selectedPiece, hi, hfind]

/-- A concrete state whose selection identifier is dangling: no piece
carries the id "ghost". -/
def sDangling : Studio :=
  { assets := []
    pieces := [⟨"p1", "a1", 10, 20, 50, 50, 0, 100, 100, 100, 100, 1⟩]
    selectedId := some "ghost"
    history := [⟨[], []⟩]
    future := [] }

theorem c9_selection_outside_history_witness :
    (undo sDangling).selectedId = sDangling.selectedId ∧
    selectedPiece sDangling = none := by
  have h := c9_selection_outside_history sDangling
  exact ⟨h.1, h.2.2 "ghost" rfl (by decide)⟩

/-- Claim C7: with the fixed grid unit 24, the snap transform returns a
multiple of 24 that is nearest to the input when snapping is enabled,
returns the input unchanged when snapping is disabled, and is idempotent
in both modes. -/
theorem c7_snap_transform (v : ℚ) :
    (∃ k : ℤ, snap true v = 24 * k) ∧
    (∀ k : ℤ, |v - snap true v| ≤ |v - 24 * k|) ∧
    snap false v = v ∧
    (∀ e, snap e (snap e v) = snap e v) := by
  refine ⟨⟨round (v / 24), by simp [snap, gridSize]; ring⟩, ?_, rfl, ?_⟩
  · intro k
    have h : |v / (24:ℚ) - round (v / (24:ℚ))| ≤ |v / (24:ℚ) - (k:ℚ)| :=
      round_le (v / (24:ℚ)) k
    have h24 : (0:ℚ) < 24 := by norm_num
    have e1 : v - snap true v = 24 * (v / 24 - round (v / 24)) := by
      simp [snap, gridSize]
      ring
    have e2 : v - 24 * (k:ℚ) = 24 * (v / 24 - (k:ℚ)) := by ring
    rw [e1, e2, abs_mul, abs_mul, abs_of_pos h24]
    exact mul_le_mul_of_nonneg_left h (le_of_lt h24)
  · intro e
    cases e
    · rfl
    · have hc : ((round (v / gridSize) : ℚ) * gridSize) / gridSize
          = ((round (v / gridSize) : ℤ) : ℚ) := by
        rw [mul_div_cancel_right₀]
        norm_num [gridSize]
      simp [snap, hc, round_intCast]

/-- Claim C8: loading from storage is atomic on failure.  A missing key or
malformed content raises the failure alert and leaves the whole state
untouched; a successful parse replaces assets and pieces wholesale,
clears the selection and raises no failure alert. -/
theorem c8_load_atomic (s : Studio) :
    loadProject .missing s = (s, true) ∧
    loadProject .malformed s = (s, true) ∧
    (∀ as ps,
      (loadProject (.ok (some as) (some ps)) s).1.assets = as ∧
      (loadProject (.ok (some as) (some ps)) s).1.pieces = ps ∧
      (loadProject (.ok (some as) (some ps)) s).1.selectedId = none ∧
      (loadProject (.ok (some as) (some ps)) s).1.history = s.history ∧
      (loadProject (.ok (some as) (some ps)) s).1.future = s.future ∧
      (loadProject (.ok (some as) (some ps)) s).2 = false) :=
  ⟨rfl, rfl, fun _ _ => ⟨rfl, rfl, rfl, rfl, rfl, rfl⟩⟩

/-- Claim C10: every piece created by place-piece-from-asset starts with
hue 0, saturation 100, brightness 100, contrast 100, opacity 100, and its
assetId is the id of the asset it was placed from. -/
theorem c10_new_piece_defaults (r : Rect) (nid : String) (a : Asset) (s : Studio) :
    ∃ p : Piece,
      (addPieceFromAsset (some r) nid a s).pieces = s.pieces ++ [p] ∧
      p.hue = 0 ∧ p.saturate = 100 ∧ p.brightness = 100 ∧ p.contrast = 100 ∧
      p.opacity = 100 ∧ p.assetId = a.id :=
  ⟨_, rfl, rfl, rfl, rfl, rfl, rfl, rfl⟩

/-- A successful selected-piece lookup pins down the selection id, membership
and the underlying `find?` call. -/
theorem selectedPiece_eq_some (s : Studio) (sp : Piece) (h : selectedPiece s = some sp) :
    s.selectedId = some sp.id ∧ sp ∈ s.pieces ∧
    s.pieces.find? (fun p => p.id = sp.id) = some sp := by
  unfold selectedPiece at h
  cases hsel : s.selectedId with
  | none => rw [hsel] at h; simp at h
  | some i =>
    rw [hsel] at h
    simp only [Option.some_bind] at h
    have hid : sp.id = i := by
      have := List.find?_some h
      simpa using this
    subst hid
    exact ⟨rfl, List.mem_of_find?_eq_some h, h⟩

/-- Claim C5: duplicating the selected piece appends a clone that copies
every field except the id (the fresh `uid()` value), the position (offset
by exactly (+20, +20)) and the z (one higher); the original pieces are
untouched and the clone becomes the selection.  Without a selection the
operation is the identity, so no history entry is pushed. -/
theorem c5_duplicate_selected (s : Studio) :
    (selectedPiece s = none → ∀ nid, duplicateSelected nid s = s) ∧
    (∀ sp nid, selectedPiece s = some sp →
      ∃ p : Piece,
        duplicateSelected nid s =
          { assets := s.assets, pieces := s.pieces ++ [p], selectedId := some p.id,
            history := s.history ++ [snapshot s], future := [] } ∧
        p.id = nid ∧ p.assetId = sp.assetId ∧
        p.x = sp.x + 20 ∧ p.y = sp.y + 20 ∧
        p.width = sp.width ∧ p.height = sp.height ∧
        p.hue = sp.hue ∧ p.saturate = sp.saturate ∧ p.brightness = sp.brightness ∧
        p.contrast = sp.contrast ∧ p.opacity = sp.opacity ∧
        p.z = sp.z + 1 ∧
        (¬ nid = sp.id → ¬ p.id = sp.id) ∧
        sp ∈ s.pieces) := by
  constructor
  · intro h nid
    unfold duplicateSelected
    rw [h]
  · intro sp nid h
    refine ⟨{ sp with id := nid, x := sp.x + 20, y := sp.y + 20, z := sp.z + 1 },
      ?_, rfl, rfl, rfl, rfl, rfl, rfl, rfl, rfl, rfl, rfl, rfl, rfl,
      fun hne => hne, (selectedPiece_eq_some s sp h).2.1⟩
    unfold duplicateSelected
    rw [h]
    rfl

theorem c5_duplicate_selected_witness :
    duplicateSelected "zz" sEmptyStacks =
      { assets := sEmptyStacks.assets
        pieces := sEmptyStacks.pieces ++
          [⟨"zz", "a1", 30, 40, 50, 50, 0, 100, 100, 100, 100, 2⟩]
        selectedId := some "zz"
        history := [⟨sEmptyStacks.assets, sEmptyStacks.pieces⟩]
        future := [] } := by
  obtain ⟨p, hp, hid, hasset, hx, hy, hw, hh, hhue, hsat, hbr, hcon, hop, hz, hne, hmem⟩ :=
    (c5_duplicate_selected sEmptyStacks).2
      ⟨"p1", "a1", 10, 20, 50, 50, 0, 100, 100, 100, 100, 1⟩ "zz" (by decide)
  rw [hp]
  cases p with
  | mk id assetId x y width height hue saturate brightness contrast opacity z =>
    simp only at hid hasset hx hy hw hh hhue hsat hbr hcon hop hz
    subst hid hasset hx hy hw hh hhue hsat hbr hcon hop hz
    norm_num [sEmptyStacks, snapshot]

/-- Mapping a z-only update over the pieces commutes with the id lookup,
because the update preserves every id. -/
theorem find?_map_zupdate (i : String) (g : ℚ → ℚ) (ps : List Piece) :
    (ps.map fun x => if x.id = i then { x with z := g x.z } else x).find?
        (fun p => p.id = i)
      = (ps.find? fun p => p.id = i).map
          fun x => if x.id = i then { x with z := g x.z } else x := by
  induction ps with
  | nil => rfl
  | cons p ps ih =>
    by_cases hp : p.id = i <;> simp [hp, ih]

/-- After `bringForward`, the selected piece is the old one with z + 1. -/
theorem selectedPiece_bringForward (s : Studio) (sp : Piece)
    (h : selectedPiece s = some sp) :
    selectedPiece (bringForward s) = some { sp with z := sp.z + 1 } := by
  obtain ⟨hsel, _, hfind⟩ := selectedPiece_eq_some s sp h
  have hbf : bringForward s =
      { s with
        pieces := s.pieces.map fun x => if x.id = sp.id then { x with z := x.z + 1 } else x
        history := s.history ++ [snapshot s]
        future := [] } := by
    unfold bringForward
    rw [h]
    rfl
  rw [hbf]
  unfold selectedPiece
  simp only [hsel, Option.some_bind]
  rw [find?_map_zupdate sp.id (fun z => z + 1) s.pieces, hfind]
  simp

/-- After `sendBackward`, the selected piece is the old one with z clamped
to `max 0 (z - 1)`. -/
theorem selectedPiece_sendBackward (s : Studio) (sp : Piece)
    (h : selectedPiece s = some sp) :
    selectedPiece (sendBackward s) = some { sp with z := max 0 (sp.z - 1) } := by
  obtain ⟨hsel, _, hfind⟩ := selectedPiece_eq_some s sp h
  have hsb : sendBackward s =
      { s with
        pieces := s.pieces.map fun x =>
          if x.id = sp.id then { x with z := max 0 (x.z - 1) } else x
        history := s.history ++ [snapshot s]
        future := [] } := by
    unfold sendBackward
    rw [h]
    rfl
  rw [hsb]
  unfold selectedPiece
  simp only [hsel, Option.some_bind]
  rw [find?_map_zupdate sp.id (fun z => max 0 (z - 1)) s.pieces, hfind]
  simp

/-- Claim C6: bring-forward increments the selected piece's z by 1,
send-backward sets it to `max 0 (z - 1)` and therefore never makes it
negative; send-backward at z = 0 leaves it at 0, and bring-forward
followed by send-backward from z = 2 returns it to 2. -/
theorem c6_z_clamping (s : Studio) (sp : Piece) (h : selectedPiece s = some sp) :
    selectedPiece (bringForward s) = some { sp with z := sp.z + 1 } ∧
    selectedPiece (sendBackward s) = some { sp with z := max 0 (sp.z - 1) } ∧
    (0:ℚ) ≤ max 0 (sp.z - 1) ∧
    (sp.z = 0 → selectedPiece (sendBackward s) = some sp) ∧
    (sp.z = 2 → selectedPiece (sendBackward (bringForward s)) = some sp) := by
  refine ⟨selectedPiece_bringForward s sp h, selectedPiece_sendBackward s sp h,
    le_max_left 0 (sp.z - 1), ?_, ?_⟩
  · intro hz
    rw [selectedPiece_sendBackward s sp h]
    cases sp with
    | mk id assetId x y width height hue saturate brightness contrast opacity z =>
      simp only at hz
      subst hz
      norm_num
  · intro hz
    have h1 := selectedPiece_bringForward s sp h
    have h2 := selectedPiece_sendBackward (bringForward s) _ h1
    rw [h2]
    cases sp with
    | mk id assetId x y width height hue saturate brightness contrast opacity z =>
      simp only at hz
      subst hz
      norm_num

/-- A concrete state with a selected piece at z = 2. -/
def sZ2 : Studio :=
  { assets := []
    pieces := [⟨"p1", "a1", 0, 0, 10, 10, 0, 100, 100, 100, 100, 2⟩]
    selectedId := some "p1"
    history := []
    future := [] }

theorem c6_z_clamping_witness :
    selectedPiece (sendBackward (bringForward sZ2)) =
      some ⟨"p1", "a1", 0, 0, 10, 10, 0, 100, 100, 100, 100, 2⟩ :=
  (c6_z_clamping sZ2 ⟨"p1", "a1", 0, 0, 10, 10, 0, 100, 100, 100, 100, 2⟩
    (by decide)).2.2.2.2 rfl

/-- The z-assignment the claim describes for place-piece, from the spec's
words: the maximum z over all existing pieces plus 1, or 1 when there are
no pieces.  For comparison with the code, which instead uses the z of the
LAST piece in insertion order (`pieces[pieces.length - 1]?.z ?? 0) + 1`). -/
def specPlacedZ (ps : List Piece) : ℚ :=
  match ps with
  | [] => 1
  | p :: rest => rest.foldl (fun m q => max m q.z) p.z + 1

/-- A document whose pieces are not sorted by z: the last piece (z = 2)
does not carry the maximal z (z = 3).  Reachable, e.g. by placing two
pieces and bringing the first forward twice. -/
def sOutOfOrder : Studio :=
  { assets := []
    pieces := [⟨"pA", "a1", 0, 0, 10, 10, 0, 100, 100, 100, 100, 3⟩,
               ⟨"pB", "a1", 0, 0, 10, 10, 0, 100, 100, 100, 100, 2⟩]
    selectedId := none
    history := []
    future := [] }

/-- Counterexample to claim C4 as stated: placing a piece on
`sOutOfOrder` (canvas 100×100) gives the new piece z = 3 — the last
piece's z plus 1 — whereas the claim demands the maximum z plus 1 = 4. -/
theorem c4_counterexample :
    ((addPieceFromAsset (some ⟨100, 100⟩) "new" ⟨"a9", "n", "d"⟩
        sOutOfOrder).pieces.getLast?).map Piece.z = some 3 ∧
    specPlacedZ sOutOfOrder.pieces = 4 ∧
    ¬ (3:ℚ) = 4 := by
  refine ⟨?_, ?_, by norm_num⟩
  · simp [addPieceFromAsset, pushHistory, sOutOfOrder, List.getLast?_concat]
    norm_num
  · norm_num [specPlacedZ, sOutOfOrder]

/-- Claim C4, amended: placing a piece with known canvas bounds appends a
new piece centered in the canvas, sized at 30% of the smaller canvas
dimension, selected, with z one more than the z of the LAST existing piece
(1 when there are no pieces); with unknown bounds the operation is a
no-op and pushes no history entry. -/
theorem c4_place_piece (r : Rect) (nid : String) (a : Asset) (s : Studio) :
    addPieceFromAsset none nid a s = s ∧
    ∃ p : Piece,
      addPieceFromAsset (some r) nid a s =
        { assets := s.assets, pieces := s.pieces ++ [p], selectedId := some p.id,
          history := s.history ++ [snapshot s], future := [] } ∧
      p.id = nid ∧
      p.width = min r.width r.height * (3 / 10) ∧
      p.height = p.width ∧
      p.x = r.width / 2 - p.width / 2 ∧
      p.y = r.height / 2 - p.height / 2 ∧
      (s.pieces = [] → p.z = 1) ∧
      (∀ l q, s.pieces = l ++ [q] → p.z = q.z + 1) := by
  refine ⟨rfl,
    ⟨{ id := nid
       assetId := a.id
       x := r.width / 2 - min r.width r.height * (3 / 10) / 2
       y := r.height / 2 - min r.width r.height * (3 / 10) / 2
       width := min r.width r.height * (3 / 10)
       height := min r.width r.height * (3 / 10)
       hue := 0
       saturate := 100
       brightness := 100
       contrast := 100
       opacity := 100
       z := ((s.pieces.getLast?).map Piece.z).getD 0 + 1 },
     rfl, rfl, rfl, rfl, rfl, rfl, ?_, ?_⟩⟩
  · intro hnil
    simp [hnil]
  · intro l q hlq
    simp [hlq, List.getLast?_concat]

theorem c4_place_piece_witness :
    ∃ p : Piece,
      (addPieceFromAsset (some ⟨100, 100⟩) "n" ⟨"a9", "n", "d"⟩ sOutOfOrder).pieces
        = sOutOfOrder.pieces ++ [p] ∧
      p.z = (2:ℚ) + 1 := by
  obtain ⟨h0, p, hp, hid, hw, hh, hx, hy, hznil, hzlast⟩ :=
    c4_place_piece ⟨100, 100⟩ "n" ⟨"a9", "n", "d"⟩ sOutOfOrder
  refine ⟨p, ?_,
    hzlast [⟨"pA", "a1", 0, 0, 10, 10, 0, 100, 100, 100, 100, 3⟩]
      ⟨"pB", "a1", 0, 0, 10, 10, 0, 100, 100, 100, 100, 2⟩ rfl⟩
  rw [hp]

end ModulaireKunstStudio
